import Mathlib

/-!
# Verification of `computeSales.py`

Shallow embedding of the two core functions of the repository,
`build_price_catalogue` and `compute_total_sales` (src/computeSales.py),
together with proofs settling the specification claims.

Modelling decisions (all taken from the Python source, not the spec):

* JSON-decoded Python values are modelled by `PyVal` (None, bool, int,
  float, str, list, dict).  Python floats are modelled by exact rationals
  `ℚ`; bit-level IEEE-754 behaviour is outside the model, but the
  structure of the accumulation (order, starting value, no rounding) is
  preserved faithfully.
* Python's `isinstance(x, (int, float))` returns `True` for booleans,
  because `bool` is a subclass of `int`; `isNumeric` models this.
* Python dict keys are compared with `==` after hashing; `pyEq` models
  Python `==` on hashable values (`True == 1 == 1.0`, strings by value,
  `None == None`); `hashable` records that lists and dicts are unhashable,
  so using them as a key or in a membership test raises `TypeError`.
* Statements that raise in Python (attribute access `.get` on a non-dict,
  hashing an unhashable value, multiplying/adding a non-numeric price)
  are modelled with `Except String`, the error string naming the Python
  exception class.
-/

namespace ComputeSales

/-- Model of a JSON-decoded Python value. -/
inductive PyVal where
  | none : PyVal
  | bool (b : Bool) : PyVal
  | int (n : Int) : PyVal
  | float (q : ℚ) : PyVal
  | str (s : String) : PyVal
  | list (xs : List PyVal) : PyVal
  | dict (kvs : List (PyVal × PyVal)) : PyVal

/-- Python `isinstance(v, (int, float))`: true for `bool`, `int`, `float`
(`bool` is a subclass of `int` in Python). -/
def isNumeric : PyVal → Bool
  | .bool _ => true
  | .int _ => true
  | .float _ => true
  | _ => false

/-- The numeric value of a Python number (`True` counts as 1, `False` as 0). -/
def numVal : PyVal → ℚ
  | .bool b => if b then 1 else 0
  | .int n => (n : ℚ)
  | .float q => q
  | _ => 0

/-- Python truthiness (`if title` ...). -/
def truthy : PyVal → Bool
  | .none => false
  | .bool b => b
  | .int n => decide (n ≠ 0)
  | .float q => decide (q ≠ 0)
  | .str s => decide (s ≠ "")
  | .list xs => !xs.isEmpty
  | .dict kvs => !kvs.isEmpty

/-- Python hashability: lists and dicts are unhashable; using one as a dict
key or in a membership test raises `TypeError`. -/
def hashable : PyVal → Bool
  | .list _ => false
  | .dict _ => false
  | _ => true

/-- Is the value a dict (so that `.get` is available)? -/
def isDict : PyVal → Bool
  | .dict _ => true
  | _ => false

/-- Python `==` as used on dict keys (hashable values): `None == None`,
numbers (including booleans) by numeric value, strings by content; values
of different classes, and unhashable values, compare unequal.  (Full Python
`==` also equates structurally equal lists/dicts, but those are unhashable
and never reach a key comparison in this program.) -/
def pyEq (a b : PyVal) : Bool :=
  if isNumeric a && isNumeric b then decide (numVal a = numVal b)
  else
    match a, b with
    | .none, .none => true
    | .str s, .str t => decide (s = t)
    | _, _ => false

/-- Python `str(v)` as used by the f-strings building warning/error
messages.  Floats are rendered via `ℚ`'s `toString`; Python's
shortest-round-trip float formatting is abstracted by the model. -/
def pyStr : PyVal → String
  | .none => "None"
  | .bool b => if b then "True" else "False"
  | .int n => toString n
  | .float q => toString q
  | .str s => s
  | .list _ => "[...]"
  | .dict _ => "{...}"

/-- An insertion-ordered Python dict, as an association list.  All dicts
this program builds keep at most one key per `pyEq`-class. -/
abbrev PyDict := List (PyVal × PyVal)

/-- Python `k in d` after a successful hash: is some stored key `== k`? -/
def dictMem (d : PyDict) (k : PyVal) : Bool :=
  d.any fun kv => pyEq kv.1 k

/-- Python `d.get(k)` / `d[k]` lookup: value of the first stored key `== k`. -/
def dictGet? (d : PyDict) (k : PyVal) : Option PyVal :=
  (d.find? fun kv => pyEq kv.1 k).map Prod.snd

/-- Python `d[k] = v`: overwrite the value at an existing `==`-equal key
(keeping its position), else append a new entry. -/
def dictSet (d : PyDict) (k v : PyVal) : PyDict :=
  if dictMem d k then
    d.map fun kv => if pyEq kv.1 k then (kv.1, v) else kv
  else
    d ++ [(k, v)]

/-- Python `obj.get(field)` with a string literal field: returns the stored
value, `None` when the field is absent, and raises `AttributeError` when
`obj` is not a dict. -/
def pyGet (v : PyVal) (field : String) : Except String PyVal :=
  match v with
  | .dict kvs => .ok ((dictGet? kvs (.str field)).getD .none)
  | _ => .error "AttributeError"

/-- Total projection used only under an `isDict` hypothesis. -/
def pyGetD (v : PyVal) (field : String) : PyVal :=
  match v with
  | .dict kvs => (dictGet? kvs (.str field)).getD .none
  | _ => .none

/-! ## `build_price_catalogue` (src/computeSales.py lines 22-33)

The loop body: `title = product.get("title")`, `price = product.get("price")`;
if `title and isinstance(price, (int, float))` then `price_catalogue[title] =
price` (which hashes `title`, raising `TypeError` when it is unhashable),
else print a warning.  Warnings are collected (the source prints them); the
collected list records the offending product records. -/

def buildLoop (cat : PyDict) (warnings : List PyVal) :
    List PyVal → Except String (PyDict × List PyVal)
  | [] => .ok (cat, warnings)
  | product :: rest =>
    match pyGet product "title" with
    | .error e => .error e
    | .ok title =>
      match pyGet product "price" with
      | .error e => .error e
      | .ok price =>
        if truthy title && isNumeric price then
          if hashable title then
            buildLoop (dictSet cat title price) warnings rest
          else
            .error "TypeError"
        else
          buildLoop cat (warnings ++ [product]) rest

def build_price_catalogue (product_list : List PyVal) :
    Except String (PyDict × List PyVal) :=
  buildLoop [] [] product_list

/-! ## `compute_total_sales` (src/computeSales.py lines 36-60)

Per sale line: `product = sale.get("Product")`, `quantity =
sale.get("Quantity")` (raising `AttributeError` on a non-dict line);
`if product not in price_catalogue` (hashing `product`, raising `TypeError`
when unhashable) append the not-found error; `elif not isinstance(quantity,
(int, float))` append the invalid-quantity error; else `total_cost +=
price_catalogue[product] * quantity` (raising `TypeError` when the stored
price is not numeric, since `str * int`, `None * int`, ... do not yield a
number addable to a float). -/

def processSale (cat : PyDict) (acc : ℚ × List String) (sale : PyVal) :
    Except String (ℚ × List String) :=
  match pyGet sale "Product" with
  | .error e => .error e
  | .ok product =>
    match pyGet sale "Quantity" with
    | .error e => .error e
    | .ok quantity =>
      if ¬ hashable product then .error "TypeError"
      else if ¬ dictMem cat product then
        .ok (acc.1, acc.2 ++ ["Producto no encontrado en catálogo: " ++ pyStr product])
      else if ¬ isNumeric quantity then
        .ok (acc.1, acc.2 ++ ["Cantidad inválida para " ++ pyStr product ++ ": " ++ pyStr quantity])
      else
        let price := (dictGet? cat product).getD .none
        if ¬ isNumeric price then .error "TypeError"
        else .ok (acc.1 + numVal price * numVal quantity, acc.2)

def aggLoop (cat : PyDict) (acc : ℚ × List String) :
    List PyVal → Except String (ℚ × List String)
  | [] => .ok acc
  | sale :: rest =>
    match processSale cat acc sale with
    | .ok acc' => aggLoop cat acc' rest
    | .error e => .error e

/-- One source's aggregation: `total_cost = 0.0`, `errors = []`, then the
inner loop. -/
def aggSource (cat : PyDict) (sales_record : List PyVal) :
    Except String (ℚ × List String) :=
  aggLoop cat (0, []) sales_record

/-- `results[filename] = (total_cost, errors)` — a Python dict write keyed
by the (string) filename. -/
def resultsSet (res : List (String × (ℚ × List String))) (k : String)
    (v : ℚ × List String) : List (String × (ℚ × List String)) :=
  if res.any (fun kv => decide (kv.1 = k)) then
    res.map fun kv => if kv.1 = k then (kv.1, v) else kv
  else
    res ++ [(k, v)]

def computeLoop (cat : PyDict) (res : List (String × (ℚ × List String))) :
    List (String × List PyVal) →
    Except String (List (String × (ℚ × List String)))
  | [] => .ok res
  | (filename, sales_record) :: rest =>
    match aggSource cat sales_record with
    | .ok pair => computeLoop cat (resultsSet res filename pair) rest
    | .error e => .error e

def compute_total_sales (price_catalogue : PyDict)
    (sales_records : List (String × List PyVal)) :
    Except String (List (String × (ℚ × List String))) :=
  computeLoop price_catalogue [] sales_records

/-! ## Named projections and derived notions used in the statements -/

/-- The `title` field a catalogue-builder iteration reads (for dict records). -/
def recTitle (product : PyVal) : PyVal := pyGetD product "title"

/-- The `price` field a catalogue-builder iteration reads (for dict records). -/
def recPrice (product : PyVal) : PyVal := pyGetD product "price"

/-- The source's acceptance condition for a product record:
`title and isinstance(price, (int, float))` (line 29). -/
def validRecord (product : PyVal) : Bool :=
  truthy (recTitle product) && isNumeric (recPrice product)

/-- The `Product` field an aggregation iteration reads (for dict lines). -/
def lineProduct (sale : PyVal) : PyVal := pyGetD sale "Product"

/-- The `Quantity` field an aggregation iteration reads (for dict lines). -/
def lineQuantity (sale : PyVal) : PyVal := pyGetD sale "Quantity"

/-- The amount `price_catalogue[product] * quantity` a resolvable sale line
adds to the running total. -/
def contribution (cat : PyDict) (sale : PyVal) : ℚ :=
  numVal ((dictGet? cat (lineProduct sale)).getD .none) * numVal (lineQuantity sale)

/-! ## State-threaded aggregator

For the frame claim about the catalogue, the aggregator is re-embedded with
the catalogue threaded through every step as mutable state: each statement
receives the catalogue it runs with and returns the catalogue the next
statement runs with, so a statement that wrote to the catalogue would
propagate the modified dict.  The source statements only read it
(`product not in price_catalogue`, `price_catalogue[product]`). -/

def processSaleS (cat : PyDict) (acc : ℚ × List String) (sale : PyVal) :
    Except String (PyDict × (ℚ × List String)) :=
  match pyGet sale "Product" with
  | .error e => .error e
  | .ok product =>
    match pyGet sale "Quantity" with
    | .error e => .error e
    | .ok quantity =>
      if ¬ hashable product then .error "TypeError"
      else if ¬ dictMem cat product then
        .ok (cat, (acc.1, acc.2 ++ ["Producto no encontrado en catálogo: " ++ pyStr product]))
      else if ¬ isNumeric quantity then
        .ok (cat, (acc.1, acc.2 ++ ["Cantidad inválida para " ++ pyStr product ++ ": " ++ pyStr quantity]))
      else
        let price := (dictGet? cat product).getD .none
        if ¬ isNumeric price then .error "TypeError"
        else .ok (cat, (acc.1 + numVal price * numVal quantity, acc.2))

def aggLoopS (cat : PyDict) (acc : ℚ × List String) :
    List PyVal → Except String (PyDict × (ℚ × List String))
  | [] => .ok (cat, acc)
  | sale :: rest =>
    match processSaleS cat acc sale with
    | .ok (cat', acc') => aggLoopS cat' acc' rest
    | .error e => .error e

def computeLoopS (cat : PyDict) (res : List (String × (ℚ × List String))) :
    List (String × List PyVal) →
    Except String (PyDict × List (String × (ℚ × List String)))
  | [] => .ok (cat, res)
  | (filename, sales_record) :: rest =>
    match aggLoopS cat (0, []) sales_record with
    | .ok (cat', pair) => computeLoopS cat' (resultsSet res filename pair) rest
    | .error e => .error e

def compute_total_salesS (price_catalogue : PyDict)
    (sales_records : List (String × List PyVal)) :
    Except String (PyDict × List (String × (ℚ × List String))) :=
  computeLoopS price_catalogue [] sales_records

/-- Spec-side predicate, following the spec's words: "`price`'s runtime
type is integer or floating-point number (booleans, strings, null, lists,
objects are all invalid prices)" — i.e. the runtime type is exactly `int`
or `float`, excluding `bool`.  Kept separate from `isNumeric` (the code's
`isinstance` check) to compare the two. -/
def isIntOrFloatType : PyVal → Bool
  | .int _ => true
  | .float _ => true
  | _ => false

/-! ## Lemmas about Python equality and dict operations -/

lemma pyEq_symm (a b : PyVal) : pyEq a b = pyEq b a := by
  cases a <;> cases b <;> simp [pyEq, isNumeric, eq_comm]

lemma pyEq_trans {a b c : PyVal} (h1 : pyEq a b = true) (h2 : pyEq b c = true) :
    pyEq a c = true := by
  cases a <;> cases b <;> cases c <;> simp_all [pyEq, isNumeric]

lemma hashable_of_pyEq {a b : PyVal} (h : pyEq a b = true) : hashable b = true := by
  cases a <;> cases b <;> simp_all [pyEq, isNumeric, hashable]

lemma pyEq_refl {a : PyVal} (h : hashable a = true) : pyEq a a = true := by
  cases a <;> simp_all [pyEq, isNumeric, hashable]

@[simp] lemma dictMem_nil (k : PyVal) : dictMem [] k = false := rfl

@[simp] lemma dictMem_cons (e : PyVal × PyVal) (d : PyDict) (k : PyVal) :
    dictMem (e :: d) k = (pyEq e.1 k || dictMem d k) := rfl

@[simp] lemma dictGet?_nil (k : PyVal) : dictGet? [] k = none := rfl

@[simp] lemma dictGet?_cons (e : PyVal × PyVal) (d : PyDict) (k : PyVal) :
    dictGet? (e :: d) k = if pyEq e.1 k then some e.2 else dictGet? d k := by
  cases h : pyEq e.1 k <;> simp [dictGet?, List.find?_cons, h]

lemma dictMem_iff {d : PyDict} {k : PyVal} :
    dictMem d k = true ↔ ∃ e ∈ d, pyEq e.1 k = true :=
  List.any_eq_true

lemma dictMem_of_dictGet?_eq_some {d : PyDict} {k v : PyVal}
    (h : dictGet? d k = some v) : dictMem d k = true := by
  induction d with
  | nil => simp at h
  | cons e d ih =>
    rw [dictGet?_cons] at h
    rw [dictMem_cons]
    by_cases he : pyEq e.1 k = true
    · rw [he, Bool.true_or]
    · rw [if_neg he] at h
      rw [ih h, Bool.or_true]

lemma dictGet?_isSome_of_dictMem {d : PyDict} {k : PyVal}
    (h : dictMem d k = true) : (dictGet? d k).isSome = true := by
  induction d with
  | nil => simp [dictMem] at h
  | cons e d ih =>
    rw [dictMem_cons] at h
    rw [dictGet?_cons]
    by_cases he : pyEq e.1 k = true
    · rw [if_pos he]; rfl
    · rw [if_neg he]
      rw [Bool.or_eq_true] at h
      exact ih (h.resolve_left he)

/-- The value a membership-checked lookup returns is one of the dict's
stored values. -/
lemma dictGet?_mem_values {d : PyDict} {k v : PyVal}
    (h : dictGet? d k = some v) : ∃ kv ∈ d, kv.2 = v := by
  unfold dictGet? at h
  cases hf : d.find? (fun kv => pyEq kv.1 k) with
  | none => rw [hf] at h; simp at h
  | some kv =>
    rw [hf] at h
    simp at h
    exact ⟨kv, List.mem_of_find?_eq_some hf, h⟩

/-- Replacing values (keys untouched) does not change memberships. -/
lemma dictMem_map_replace (d : PyDict) (k v k' : PyVal) :
    dictMem (d.map fun kv => if pyEq kv.1 k then (kv.1, v) else kv) k'
      = dictMem d k' := by
  induction d with
  | nil => rfl
  | cons e d ih =>
    by_cases he : pyEq e.1 k = true
    · rw [List.map_cons, if_pos he, dictMem_cons, dictMem_cons, ih]
    · rw [List.map_cons, if_neg he, dictMem_cons, dictMem_cons, ih]

/-- Value replacement at key `k` does not change lookups at keys `≠ k`. -/
lemma dictGet?_map_replace_of_ne (d : PyDict) {k k' : PyVal} (v : PyVal)
    (hpk : pyEq k k' = false) :
    dictGet? (d.map fun kv => if pyEq kv.1 k then (kv.1, v) else kv) k'
      = dictGet? d k' := by
  induction d with
  | nil => rfl
  | cons e d ih =>
    rw [List.map_cons, dictGet?_cons, dictGet?_cons]
    by_cases hek : pyEq e.1 k = true
    · have hek' : pyEq e.1 k' = false := by
        cases h : pyEq e.1 k' with
        | false => rfl
        | true =>
          have h1 : pyEq k e.1 = true := by rw [pyEq_symm]; exact hek
          rw [pyEq_trans h1 h] at hpk
          exact absurd hpk (by simp)
      rw [if_pos hek]
      simp only [hek', Bool.false_eq_true, if_false, ih]
    · rw [if_neg hek]
      by_cases hek' : pyEq e.1 k' = true
      · rw [if_pos hek', if_pos hek']
      · rw [if_neg hek', if_neg hek', ih]

/-- Value replacement at a present key `k` makes every lookup at a key
`== k` return the new value. -/
lemma dictGet?_map_replace_of_eq {d : PyDict} {k k' : PyVal} (v : PyVal)
    (hpk : pyEq k k' = true) (hm : dictMem d k = true) :
    dictGet? (d.map fun kv => if pyEq kv.1 k then (kv.1, v) else kv) k'
      = some v := by
  induction d with
  | nil => simp [dictMem] at hm
  | cons e d ih =>
    by_cases hek : pyEq e.1 k = true
    · have hek' : pyEq e.1 k' = true := pyEq_trans hek hpk
      rw [List.map_cons, if_pos hek, dictGet?_cons,
        if_pos (show pyEq ((e.1, v) : PyVal × PyVal).1 k' = true from hek')]
    · have hek' : pyEq e.1 k' = false := by
        cases hc : pyEq e.1 k' with
        | false => rfl
        | true =>
          have h1 : pyEq k' k = true := by rw [pyEq_symm]; exact hpk
          rw [pyEq_trans hc h1] at hek
          exact absurd rfl hek
      rw [dictMem_cons] at hm
      rw [Bool.or_eq_true] at hm
      rw [List.map_cons, if_neg hek, dictGet?_cons,
        if_neg (show ¬ pyEq e.1 k' = true from by rw [hek']; simp)]
      exact ih (hm.resolve_left hek)

/-- How a dict write affects membership: the written key becomes a member
and other memberships are unchanged. -/
lemma dictMem_set (d : PyDict) (k v k' : PyVal) :
    dictMem (dictSet d k v) k' = (pyEq k k' || dictMem d k') := by
  unfold dictSet
  by_cases hm : dictMem d k = true
  · rw [if_pos hm, dictMem_map_replace]
    cases hpk : pyEq k k' with
    | false => rw [Bool.false_or]
    | true =>
      obtain ⟨e, hed, hek⟩ := dictMem_iff.1 hm
      have he' : pyEq e.1 k' = true := pyEq_trans hek hpk
      rw [dictMem_iff.2 ⟨e, hed, he'⟩, Bool.true_or]
  · rw [if_neg hm]
    unfold dictMem
    rw [List.any_append]
    simp [Bool.or_comm]

/-- How a dict write affects lookup: the written key now maps to the new
value, and all other lookups are unchanged. -/
lemma dictGet?_set (d : PyDict) (k v k' : PyVal) :
    dictGet? (dictSet d k v) k' = if pyEq k k' then some v else dictGet? d k' := by
  unfold dictSet
  by_cases hm : dictMem d k = true
  · rw [if_pos hm]
    cases hpk : pyEq k k' with
    | false =>
      rw [if_neg (by simp)]
      exact dictGet?_map_replace_of_ne d v hpk
    | true =>
      rw [if_pos rfl]
      exact dictGet?_map_replace_of_eq v hpk hm
  · rw [if_neg hm]
    unfold dictGet?
    rw [List.find?_append]
    cases hpk : pyEq k k' with
    | false =>
      simp [List.find?_cons, hpk]
    | true =>
      have hnone : d.find? (fun kv => pyEq kv.1 k') = none := by
        rw [List.find?_eq_none]
        intro e hed
        cases hc : pyEq e.1 k' with
        | false => simp
        | true =>
          have h1 : pyEq k' k = true := by rw [pyEq_symm]; exact hpk
          have h2 : pyEq e.1 k = true := pyEq_trans hc h1
          rw [dictMem_iff.2 ⟨e, hed, h2⟩] at hm
          exact absurd rfl hm
      simp [hnone, List.find?_cons, hpk]

lemma hashable_of_dictMem {cat : PyDict} {p : PyVal}
    (hm : dictMem cat p = true) : hashable p = true := by
  obtain ⟨e, _, he⟩ := dictMem_iff.1 hm
  exact hashable_of_pyEq he

/-- In a dict all of whose values are numeric, the value found for a
present key is numeric. -/
lemma price_numeric_of_values {cat : PyDict} {p : PyVal}
    (hcat : ∀ kv ∈ cat, isNumeric kv.2 = true)
    (hm : dictMem cat p = true) :
    isNumeric ((dictGet? cat p).getD .none) = true := by
  have hs := dictGet?_isSome_of_dictMem hm
  cases hg : dictGet? cat p with
  | none => rw [hg] at hs; simp at hs
  | some v =>
    obtain ⟨kv, hkv, hv⟩ := dictGet?_mem_values hg
    rw [show (Option.some v).getD PyVal.none = v from rfl, ← hv]
    exact hcat kv hkv

lemma pyGet_of_isDict {v : PyVal} (h : isDict v = true) (f : String) :
    pyGet v f = .ok (pyGetD v f) := by
  cases v <;> simp [isDict] at h
  rfl

/-! ## Branch behaviour of a single sale-line iteration -/

/-- Lines 47-49: unknown product (membership test false) appends exactly
the not-found error and leaves the total untouched. -/
lemma processSale_not_found {cat : PyDict} {acc : ℚ × List String} {sale : PyVal}
    (hd : isDict sale = true) (hh : hashable (lineProduct sale) = true)
    (hm : dictMem cat (lineProduct sale) = false) :
    processSale cat acc sale =
      .ok (acc.1, acc.2 ++ ["Producto no encontrado en catálogo: " ++ pyStr (lineProduct sale)]) := by
  unfold processSale
  rw [pyGet_of_isDict hd, pyGet_of_isDict hd]
  simp only [lineProduct] at hh hm
  simp [hh, hm, lineProduct]

/-- Lines 51-55: known product but non-`isinstance`-numeric quantity
appends exactly the invalid-quantity error and leaves the total untouched. -/
lemma processSale_bad_quantity {cat : PyDict} {acc : ℚ × List String} {sale : PyVal}
    (hd : isDict sale = true) (hm : dictMem cat (lineProduct sale) = true)
    (hq : isNumeric (lineQuantity sale) = false) :
    processSale cat acc sale =
      .ok (acc.1, acc.2 ++
        ["Cantidad inválida para " ++ pyStr (lineProduct sale) ++ ": " ++ pyStr (lineQuantity sale)]) := by
  have hh : hashable (lineProduct sale) = true := hashable_of_dictMem hm
  unfold processSale
  rw [pyGet_of_isDict hd, pyGet_of_isDict hd]
  simp only [lineProduct, lineQuantity] at hh hm hq
  simp [hh, hm, hq, lineProduct, lineQuantity]

/-- Line 57: known product, numeric quantity and numeric stored price
accumulate `price_catalogue[product] * quantity` and append no error. -/
lemma processSale_contrib {cat : PyDict} {acc : ℚ × List String} {sale : PyVal}
    (hd : isDict sale = true) (hm : dictMem cat (lineProduct sale) = true)
    (hq : isNumeric (lineQuantity sale) = true)
    (hp : isNumeric ((dictGet? cat (lineProduct sale)).getD .none) = true) :
    processSale cat acc sale = .ok (acc.1 + contribution cat sale, acc.2) := by
  have hh : hashable (lineProduct sale) = true := hashable_of_dictMem hm
  unfold processSale
  rw [pyGet_of_isDict hd, pyGet_of_isDict hd]
  simp only [lineProduct, lineQuantity] at hh hm hq hp
  simp [hh, hm, hq, hp, contribution, lineProduct, lineQuantity]

/-- A dict sale line with hashable product (and numeric stored price when
the product resolves) always yields a successor state, never an exception. -/
lemma processSale_ok {cat : PyDict} {acc : ℚ × List String} {sale : PyVal}
    (hd : isDict sale = true) (hh : hashable (lineProduct sale) = true)
    (hp : dictMem cat (lineProduct sale) = true →
      isNumeric ((dictGet? cat (lineProduct sale)).getD .none) = true) :
    (processSale cat acc sale = .ok (acc.1 + contribution cat sale, acc.2)) ∨
    (∃ e, processSale cat acc sale = .ok (acc.1, acc.2 ++ [e])) := by
  cases hm : dictMem cat (lineProduct sale) with
  | false => exact .inr ⟨_, processSale_not_found hd hh hm⟩
  | true =>
    cases hq : isNumeric (lineQuantity sale) with
    | false => exact .inr ⟨_, processSale_bad_quantity hd hm hq⟩
    | true => exact .inl (processSale_contrib hd hm hq (hp hm))

/-! ## Loop-level lemmas for the aggregator -/

/-- Well-shaped sale lines (dicts with hashable products) over a dict with
numeric values never abort an inner loop. -/
lemma aggLoop_ok {cat : PyDict} {ls : List PyVal}
    (hcat : ∀ kv ∈ cat, isNumeric kv.2 = true)
    (hl : ∀ sale ∈ ls, isDict sale = true ∧ hashable (lineProduct sale) = true) :
    ∀ acc, ∃ r, aggLoop cat acc ls = .ok r := by
  induction ls with
  | nil => exact fun acc => ⟨acc, rfl⟩
  | cons sale rest ih =>
    intro acc
    obtain ⟨hd, hh⟩ := hl sale (List.mem_cons_self sale rest)
    have hrest : ∀ s ∈ rest, isDict s = true ∧ hashable (lineProduct s) = true :=
      fun s hs => hl s (List.mem_cons_of_mem sale hs)
    have hp : dictMem cat (lineProduct sale) = true →
        isNumeric ((dictGet? cat (lineProduct sale)).getD .none) = true :=
      fun hm => price_numeric_of_values hcat hm
    rcases @processSale_ok cat acc sale hd hh hp with hstep | ⟨e, hstep⟩
    · obtain ⟨r, hr⟩ := ih hrest (acc.1 + contribution cat sale, acc.2)
      exact ⟨r, by rw [aggLoop, hstep]; exact hr⟩
    · obtain ⟨r, hr⟩ := ih hrest (acc.1, acc.2 ++ [e])
      exact ⟨r, by rw [aggLoop, hstep]; exact hr⟩

/-- The inner loop over all-resolvable lines accumulates the contributions
of the lines, left to right, and appends no error. -/
lemma aggLoop_all_valid {cat : PyDict} {ls : List PyVal}
    (hcat : ∀ kv ∈ cat, isNumeric kv.2 = true)
    (hl : ∀ sale ∈ ls, isDict sale = true ∧
      dictMem cat (lineProduct sale) = true ∧ isNumeric (lineQuantity sale) = true) :
    ∀ acc : ℚ × List String, aggLoop cat acc ls =
      .ok (ls.foldl (fun t sale => t + contribution cat sale) acc.1, acc.2) := by
  induction ls with
  | nil => exact fun acc => rfl
  | cons sale rest ih =>
    intro acc
    obtain ⟨hd, hm, hq⟩ := hl sale (List.mem_cons_self sale rest)
    have hrest : ∀ s ∈ rest, isDict s = true ∧
        dictMem cat (lineProduct s) = true ∧ isNumeric (lineQuantity s) = true :=
      fun s hs => hl s (List.mem_cons_of_mem sale hs)
    have hstep := @processSale_contrib cat acc sale hd hm hq (price_numeric_of_values hcat hm)
    rw [aggLoop, hstep]
    exact ih hrest (acc.1 + contribution cat sale, acc.2)

/-- `results` writes use fresh keys only when no source name repeats, so the
result list grows by straight appends, preserving input order. -/
lemma computeLoop_append {cat : PyDict} {srcs : List (String × List PyVal)} :
    ∀ res out, computeLoop cat res srcs = .ok out →
    (srcs.map Prod.fst).Nodup →
    (∀ s ∈ srcs, ∀ kv ∈ res, kv.1 ≠ s.1) →
    ∃ tail, out = res ++ tail ∧ tail.map Prod.fst = srcs.map Prod.fst ∧
      ∀ pr ∈ srcs.zip tail, pr.1.1 = pr.2.1 ∧ aggSource cat pr.1.2 = .ok pr.2.2 := by
  induction srcs with
  | nil =>
    intro res out hrun _ _
    exact ⟨[], by simpa [computeLoop] using hrun.symm, rfl, by simp⟩
  | cons s rest ih =>
    intro res out hrun hnd hfresh
    obtain ⟨f, ls⟩ := s
    rw [computeLoop] at hrun
    cases hagg : aggSource cat ls with
    | error e => rw [hagg] at hrun; exact absurd hrun (by simp)
    | ok pair =>
      rw [hagg] at hrun
      have hset : resultsSet res f pair = res ++ [(f, pair)] := by
        have hc : res.any (fun kv => decide (kv.1 = f)) = false := by
          cases hany : res.any (fun kv => decide (kv.1 = f)) with
          | false => rfl
          | true =>
            obtain ⟨kv, hkv, hdec⟩ := List.any_eq_true.1 hany
            exact absurd (of_decide_eq_true hdec)
              (hfresh (f, ls) (List.mem_cons_self _ _) kv hkv)
        unfold resultsSet
        rw [hc]
        simp
      have hrun2 : computeLoop cat (resultsSet res f pair) rest = .ok out := hrun
      rw [hset] at hrun2
      have hnd' : (rest.map Prod.fst).Nodup := (List.nodup_cons.1 hnd).2
      have hfresh' : ∀ s ∈ rest, ∀ kv ∈ res ++ [(f, pair)], kv.1 ≠ s.1 := by
        intro s hs kv hkv
        rcases List.mem_append.1 hkv with hkv | hkv
        · exact hfresh s (List.mem_cons_of_mem _ hs) kv hkv
        · have : kv = (f, pair) := List.mem_singleton.1 hkv
          rw [this]
          intro hcontra
          exact (List.nodup_cons.1 hnd).1 (hcontra ▸ List.mem_map_of_mem Prod.fst hs)
      obtain ⟨tail, hout, hmap, hzip⟩ := ih (res ++ [(f, pair)]) out hrun2 hnd' hfresh'
      refine ⟨(f, pair) :: tail, by rw [hout, List.append_assoc]; rfl, by simp [hmap], ?_⟩
      intro pr hpr
      rcases List.mem_cons.1 (by simpa [List.zip_cons_cons] using hpr) with hpr1 | hpr1
      · rw [hpr1]
        exact ⟨rfl, hagg⟩
      · exact hzip pr hpr1

/-! ## Loop-level lemmas for the catalogue builder -/

/-- One builder iteration on a dict record, expressed through the named
projections. -/
lemma buildLoop_cons_dict {p : PyVal} (hd : isDict p = true)
    (cat : PyDict) (ws : List PyVal) (rest : List PyVal) :
    buildLoop cat ws (p :: rest) =
      if validRecord p = true then
        if hashable (recTitle p) = true then
          buildLoop (dictSet cat (recTitle p) (recPrice p)) ws rest
        else .error "TypeError"
      else buildLoop cat (ws ++ [p]) rest := by
  rw [buildLoop, pyGet_of_isDict hd, pyGet_of_isDict hd]
  rfl

/-- Characterization of the builder loop on well-shaped records: it never
aborts, warns exactly on the records failing the acceptance test, and the
final key set is the starting key set plus the accepted titles. -/
lemma buildLoop_mem {pl : List PyVal}
    (hshape : ∀ p ∈ pl, isDict p = true ∧
      (validRecord p = true → hashable (recTitle p) = true)) :
    ∀ cat ws, ∃ cat2, buildLoop cat ws pl =
        .ok (cat2, ws ++ pl.filter (fun p => !validRecord p)) ∧
      ∀ k, dictMem cat2 k =
        (pl.any (fun p => validRecord p && pyEq (recTitle p) k) || dictMem cat k) := by
  induction pl with
  | nil => exact fun cat ws => ⟨cat, by simp [buildLoop], by simp⟩
  | cons p rest ih =>
    intro cat ws
    obtain ⟨hd, hhash⟩ := hshape p (List.mem_cons_self p rest)
    have hrest : ∀ q ∈ rest, isDict q = true ∧
        (validRecord q = true → hashable (recTitle q) = true) :=
      fun q hq => hshape q (List.mem_cons_of_mem p hq)
    rw [buildLoop_cons_dict hd]
    cases hv : validRecord p with
    | true =>
      rw [if_pos rfl, if_pos (hhash hv)]
      obtain ⟨cat2, hrun, hmem⟩ := ih hrest (dictSet cat (recTitle p) (recPrice p)) ws
      refine ⟨cat2, ?_, ?_⟩
      · rw [hrun, List.filter_cons]
        simp [hv]
      · intro k
        rw [hmem k, dictMem_set]
        simp only [List.any_cons, hv, Bool.true_and]
        cases hpk : pyEq (recTitle p) k <;>
          cases hrany : rest.any (fun p => validRecord p && pyEq (recTitle p) k) <;>
          simp
    | false =>
      rw [if_neg (by simp [hv])]
      obtain ⟨cat2, hrun, hmem⟩ := ih hrest cat (ws ++ [p])
      refine ⟨cat2, ?_, ?_⟩
      · rw [hrun, List.filter_cons]
        simp [hv]
      · intro k
        rw [hmem k]
        simp only [List.any_cons, hv, Bool.false_and, Bool.false_or]

/-- Characterization of the builder loop lookups on all-valid records:
the price of the last record whose title matches wins, falling back to the
starting dict. -/
lemma buildLoop_get {pl : List PyVal}
    (hvalid : ∀ p ∈ pl, isDict p = true ∧ validRecord p = true ∧
      hashable (recTitle p) = true) :
    ∀ cat ws, ∃ cat2, buildLoop cat ws pl = .ok (cat2, ws) ∧
      ∀ k, dictGet? cat2 k =
        ((pl.reverse.find? (fun p => pyEq (recTitle p) k)).map recPrice).or (dictGet? cat k) := by
  induction pl with
  | nil => exact fun cat ws => ⟨cat, rfl, by simp⟩
  | cons p rest ih =>
    intro cat ws
    obtain ⟨hd, hv, hh⟩ := hvalid p (List.mem_cons_self p rest)
    have hrest : ∀ q ∈ rest, isDict q = true ∧ validRecord q = true ∧
        hashable (recTitle q) = true :=
      fun q hq => hvalid q (List.mem_cons_of_mem p hq)
    rw [buildLoop_cons_dict hd, if_pos hv, if_pos hh]
    obtain ⟨cat2, hrun, hget⟩ := ih hrest (dictSet cat (recTitle p) (recPrice p)) ws
    refine ⟨cat2, hrun, ?_⟩
    intro k
    rw [hget k, dictGet?_set]
    rw [List.reverse_cons, List.find?_append]
    cases hf : rest.reverse.find? (fun q => pyEq (recTitle q) k) with
    | some q => simp [hf]
    | none =>
      cases hpk : pyEq (recTitle p) k with
      | true => simp [hf, List.find?_cons, hpk]
      | false => simp [hf, List.find?_cons, hpk]

/-! ## Refinement between the state-threaded and the plain aggregator -/

lemma processSaleS_eq (cat : PyDict) (acc : ℚ × List String) (sale : PyVal) :
    processSaleS cat acc sale = (processSale cat acc sale).map (fun r => (cat, r)) := by
  unfold processSaleS processSale
  cases pyGet sale "Product" with
  | error e => rfl
  | ok product =>
    cases pyGet sale "Quantity" with
    | error e => rfl
    | ok quantity =>
      by_cases hh : hashable product = true
      · simp only [hh]
        by_cases hm : dictMem cat product = true
        · simp only [hm]
          by_cases hq : isNumeric quantity = true
          · simp only [hq]
            by_cases hp : isNumeric ((dictGet? cat product).getD .none) = true
            · simp [hp, Except.map]
            · simp [hp, Except.map]
          · simp [hq, Except.map]
        · simp [hm, Except.map]
      · simp [hh, Except.map]

lemma aggLoopS_eq (ls : List PyVal) :
    ∀ cat acc, aggLoopS cat acc ls = (aggLoop cat acc ls).map (fun r => (cat, r)) := by
  induction ls with
  | nil => exact fun cat acc => rfl
  | cons sale rest ih =>
    intro cat acc
    rw [aggLoopS, aggLoop, processSaleS_eq]
    cases processSale cat acc sale with
    | error e => rfl
    | ok acc2 => exact ih cat acc2

lemma computeLoopS_eq (srcs : List (String × List PyVal)) :
    ∀ cat res, computeLoopS cat res srcs = (computeLoop cat res srcs).map (fun r => (cat, r)) := by
  induction srcs with
  | nil => exact fun cat res => rfl
  | cons s rest ih =>
    intro cat res
    obtain ⟨f, ls⟩ := s
    rw [computeLoopS, computeLoop, aggLoopS_eq]
    unfold aggSource
    cases aggLoop cat (0, []) ls with
    | error e => rfl
    | ok pair => exact ih cat (resultsSet res f pair)

/-- Well-shaped sources never abort the outer loop. -/
lemma computeLoop_ok {cat : PyDict} {srcs : List (String × List PyVal)}
    (hcat : ∀ kv ∈ cat, isNumeric kv.2 = true)
    (hsrc : ∀ s ∈ srcs, ∀ sale ∈ s.2, isDict sale = true ∧ hashable (lineProduct sale) = true) :
    ∀ res, ∃ out, computeLoop cat res srcs = .ok out := by
  induction srcs with
  | nil => exact fun res => ⟨res, rfl⟩
  | cons s rest ih =>
    intro res
    obtain ⟨f, ls⟩ := s
    obtain ⟨pair, hpair⟩ := aggLoop_ok hcat (hsrc (f, ls) (List.mem_cons_self _ _)) (0, [])
    obtain ⟨out, hout⟩ := ih (fun q hq => hsrc q (List.mem_cons_of_mem _ hq)) (resultsSet res f pair)
    exact ⟨out, by rw [computeLoop, show aggSource cat ls = .ok pair from hpair]; exact hout⟩

/-! ## Claims

Each claim of the specification is settled below.  A claim refuted by the
code gets a closed counterexample theorem and an amended theorem; a claim
the code satisfies gets the theorem as stated (with a closed witness when
the theorem carries hypotheses). -/

/-- C1 counterexample: the claim says no exception is raised under inputs
"of any shape whatsoever", but a sale line that is not a dict (here the
JSON value `null`) makes `sale.get("Product")` raise `AttributeError`,
aborting the whole computation with no error-list entry. -/
theorem C1_counterexample :
    compute_total_sales [] [("sales.json", [PyVal.none])] = .error "AttributeError" :=
  rfl

/-- C1 (amended): for every catalogue whose values are numeric and every
sources mapping whose sale lines are all dicts with hashable `Product`
values, `compute_total_sales` raises no exception: it returns a result for
every such input; anomalies only become error-list entries.  (Sale lines
that are not dicts raise `AttributeError`; unhashable `Product` values
raise `TypeError`; both abort the run, so the original unrestricted claim
is false.) -/
theorem C1_no_exception (cat : PyDict) (sources : List (String × List PyVal))
    (hcat : ∀ kv ∈ cat, isNumeric kv.2 = true)
    (hsrc : ∀ s ∈ sources, ∀ sale ∈ s.2,
      isDict sale = true ∧ hashable (lineProduct sale) = true) :
    ∃ res, compute_total_sales cat sources = .ok res :=
  computeLoop_ok hcat hsrc []

/-- C1 witness: a concrete well-shaped run (unknown product, so the line
degrades to an error entry) returns a result. -/
theorem C1_witness :
    ∃ res, compute_total_sales [(.str "A", .int 2)]
      [("f", [.dict [(.str "Product", .str "B")]])] = .ok res :=
  C1_no_exception _ _ (by decide) (by decide)

/-- C2 counterexample: processing the sale line `5` (not a dict) raises
`AttributeError`: the line neither contributes to the total nor appends an
error entry, refuting "never neither" for arbitrary sale lines. -/
theorem C2_counterexample :
    processSale [] (0, []) (.int 5) = .error "AttributeError" :=
  rfl

/-- C2 (amended): for every sale line that is a dict with hashable
`Product` value (over a catalogue whose matched price is numeric),
processing the line either adds a contribution to the total or appends
exactly one error string — never both and never neither.  Lines of other
shapes raise an exception instead of doing either. -/
theorem C2_line_exclusive (cat : PyDict) (acc : ℚ × List String) (sale : PyVal)
    (hd : isDict sale = true) (hh : hashable (lineProduct sale) = true)
    (hp : dictMem cat (lineProduct sale) = true →
      isNumeric ((dictGet? cat (lineProduct sale)).getD .none) = true) :
    ((∃ c, processSale cat acc sale = .ok (acc.1 + c, acc.2)) ∧
      ¬ ∃ e, processSale cat acc sale = .ok (acc.1, acc.2 ++ [e])) ∨
    ((∃ e, processSale cat acc sale = .ok (acc.1, acc.2 ++ [e])) ∧
      ¬ ∃ c, processSale cat acc sale = .ok (acc.1 + c, acc.2)) := by
  rcases processSale_ok hd hh hp with h | ⟨e, h⟩
  · refine .inl ⟨⟨contribution cat sale, h⟩, ?_⟩
    rintro ⟨e, h2⟩
    rw [h] at h2
    have h4 : acc.2 = acc.2 ++ [e] := congrArg Prod.snd (Except.ok.inj h2)
    have h5 := congrArg List.length h4
    simp at h5
  · refine .inr ⟨⟨e, h⟩, ?_⟩
    rintro ⟨c, h2⟩
    rw [h] at h2
    have h4 : acc.2 ++ [e] = acc.2 := congrArg Prod.snd (Except.ok.inj h2)
    have h5 := congrArg List.length h4
    simp at h5

/-- C2 witness: a concrete dict line with an unknown product falls in the
exactly-one-error arm. -/
theorem C2_witness :
    ((∃ c, processSale [] (0, []) (.dict [(.str "Product", .str "X")]) = .ok (0 + c, [])) ∧
      ¬ ∃ e, processSale [] (0, []) (.dict [(.str "Product", .str "X")]) = .ok (0, [] ++ [e])) ∨
    ((∃ e, processSale [] (0, []) (.dict [(.str "Product", .str "X")]) = .ok (0, [] ++ [e])) ∧
      ¬ ∃ c, processSale [] (0, []) (.dict [(.str "Product", .str "X")]) = .ok (0 + c, [])) :=
  C2_line_exclusive [] (0, []) _ (by decide) (by decide) (fun h => absurd h (by decide))

/-- C3 counterexample: a record with price `True` is inserted by
`build_price_catalogue` even though the claim counts booleans as invalid
prices — Python `isinstance(True, int)` holds because `bool` subclasses
`int`, so the code accepts it and the key set is not the claimed one. -/
theorem C3_counterexample :
    build_price_catalogue [.dict [(.str "title", .str "A"), (.str "price", .bool true)]]
      = .ok ([(.str "A", .bool true)], []) ∧
    isIntOrFloatType (.bool true) = false ∧ truthy (.str "A") = true :=
  ⟨rfl, rfl, rfl⟩

/-- C3 (amended): for every product list of dict records whose accepted
titles are hashable, `build_price_catalogue` inserts `title -> price`
exactly when the title is truthy and the price satisfies
`isinstance(price, (int, float))` — which includes booleans, since `bool`
subclasses `int`; every invalid record is dropped with a warning, in input
order, and processing continues with no exception, so the key set of the
result equals the titles of valid records only.  (A truthy unhashable
title with numeric price would instead raise `TypeError`.) -/
theorem C3_build_characterization (pl : List PyVal)
    (hshape : ∀ p ∈ pl, isDict p = true ∧
      (validRecord p = true → hashable (recTitle p) = true)) :
    ∃ cat ws, build_price_catalogue pl = .ok (cat, ws) ∧
      ws = pl.filter (fun p => !validRecord p) ∧
      ∀ k, dictMem cat k = pl.any (fun p => validRecord p && pyEq (recTitle p) k) := by
  obtain ⟨cat2, hrun, hmem⟩ := buildLoop_mem hshape [] []
  refine ⟨cat2, pl.filter (fun p => !validRecord p), ?_, rfl, ?_⟩
  · show buildLoop [] [] pl = _
    rw [hrun]
    simp
  · intro k
    rw [hmem k]
    simp

/-- C3 witness: the spec's Scenario D — a record without price, a record
with string price and a record with integer price; exactly the last one is
inserted and the two invalid records are warned about. -/
theorem C3_witness :
    ∃ cat ws, build_price_catalogue
        [.dict [(.str "title", .str "X")],
         .dict [(.str "title", .str "Y"), (.str "price", .str "cheap")],
         .dict [(.str "title", .str "Z"), (.str "price", .int 3)]] = .ok (cat, ws) ∧
      ws = [.dict [(.str "title", .str "X")],
         .dict [(.str "title", .str "Y"), (.str "price", .str "cheap")],
         .dict [(.str "title", .str "Z"), (.str "price", .int 3)]].filter
           (fun p => !validRecord p) ∧
      ∀ k, dictMem cat k = [.dict [(.str "title", .str "X")],
         .dict [(.str "title", .str "Y"), (.str "price", .str "cheap")],
         .dict [(.str "title", .str "Z"), (.str "price", .int 3)]].any
           (fun p => validRecord p && pyEq (recTitle p) k) :=
  C3_build_characterization _ (by decide)

/-- C4 counterexample: a sale line whose `Product` is the (unhashable)
empty list is not a key of any catalogue, yet the membership test raises
`TypeError` instead of appending the not-found error, refuting the claim
for arbitrary `Product` values. -/
theorem C4_counterexample :
    compute_total_sales []
      [("sales1.json", [.dict [(.str "Product", .list []), (.str "Quantity", .int 1)]])]
      = .error "TypeError" ∧
    dictMem [] (.list []) = false :=
  ⟨rfl, rfl⟩

/-- C4 (amended): for every sale line that is a dict whose `Product` value
is hashable and not a key of the catalogue, processing appends exactly one
error string equal to `"Producto no encontrado en catálogo: " ++ str(Product)`
and adds nothing to the total. -/
theorem C4_unknown_product (cat : PyDict) (acc : ℚ × List String) (sale : PyVal)
    (hd : isDict sale = true) (hh : hashable (lineProduct sale) = true)
    (hm : dictMem cat (lineProduct sale) = false) :
    processSale cat acc sale =
      .ok (acc.1, acc.2 ++ ["Producto no encontrado en catálogo: " ++ pyStr (lineProduct sale)]) :=
  processSale_not_found hd hh hm

/-- C4 witness: unknown product "B" against the empty catalogue. -/
theorem C4_witness :
    processSale [] (0, []) (.dict [(.str "Product", .str "B")]) =
      .ok (0, [] ++ ["Producto no encontrado en catálogo: "
        ++ pyStr (lineProduct (.dict [(.str "Product", .str "B")]))]) :=
  C4_unknown_product [] (0, []) _ (by decide) (by decide) (by decide)

/-- C5 counterexample: `Quantity = True` has runtime type `bool`, not
`int` or `float`, yet the line is accepted (Python `isinstance(True,
(int, float))` holds) and contributes `price * 1` with no error entry —
refuting the claim that such a line produces exactly one error. -/
theorem C5_counterexample :
    isIntOrFloatType (.bool true) = false ∧
    processSale [(.str "A", .int 2)] (0, [])
      (.dict [(.str "Product", .str "A"), (.str "Quantity", .bool true)]) = .ok (2, []) := by
  refine ⟨rfl, ?_⟩
  rw [processSale_contrib (by decide) (by decide) (by decide) (by decide)]
  have h1 : contribution [(.str "A", .int 2)]
      (.dict [(.str "Product", .str "A"), (.str "Quantity", .bool true)]) = ((2 : Int) : ℚ) * 1 :=
    rfl
  rw [h1]
  norm_num

/-- C5 (amended): for every sale line that is a dict whose `Product` is a
catalogue key but whose `Quantity` fails `isinstance(quantity, (int,
float))` — booleans count as numeric, since `bool` subclasses `int` —
processing appends exactly one error string equal to
`"Cantidad inválida para " ++ str(Product) ++ ": " ++ str(Quantity)` and
adds nothing to the total. -/
theorem C5_invalid_quantity (cat : PyDict) (acc : ℚ × List String) (sale : PyVal)
    (hd : isDict sale = true) (hm : dictMem cat (lineProduct sale) = true)
    (hq : isNumeric (lineQuantity sale) = false) :
    processSale cat acc sale =
      .ok (acc.1, acc.2 ++ ["Cantidad inválida para " ++ pyStr (lineProduct sale)
        ++ ": " ++ pyStr (lineQuantity sale)]) :=
  processSale_bad_quantity hd hm hq

/-- C5 witness: the spec's Scenario C — known product, string quantity. -/
theorem C5_witness :
    processSale [(.str "A", .int 2)] (0, [])
        (.dict [(.str "Product", .str "A"), (.str "Quantity", .str "two")]) =
      .ok (0, [] ++ ["Cantidad inválida para "
        ++ pyStr (lineProduct (.dict [(.str "Product", .str "A"), (.str "Quantity", .str "two")]))
        ++ ": "
        ++ pyStr (lineQuantity (.dict [(.str "Product", .str "A"), (.str "Quantity", .str "two")]))]) :=
  C5_invalid_quantity [(.str "A", .int 2)] (0, []) _ (by decide) (by decide) (by decide)

/-- C6: for a source all of whose sale lines resolve (dict lines, product
in the catalogue, `isinstance`-numeric quantity, numeric stored prices),
the source's aggregation succeeds with no errors and a total equal to the
left fold, in input order and starting from 0, of
`total + price[Product] * Quantity` — no rounding is applied to the stored
result.  (Numbers are modelled by exact rationals; IEEE-754 bit-level
rounding of the Python float operations is outside the model, the
structure of the accumulation is preserved exactly.) -/
theorem C6_total_is_ordered_sum (cat : PyDict) (ls : List PyVal)
    (hcat : ∀ kv ∈ cat, isNumeric kv.2 = true)
    (hl : ∀ sale ∈ ls, isDict sale = true ∧ dictMem cat (lineProduct sale) = true ∧
      isNumeric (lineQuantity sale) = true) :
    aggSource cat ls = .ok (ls.foldl (fun t sale => t + contribution cat sale) 0, []) :=
  aggLoop_all_valid hcat hl (0, [])

/-- C6 witness: the spec's Scenario A shape — one resolvable line. -/
theorem C6_witness :
    aggSource [(.str "Apple", .float (5/2))]
        [.dict [(.str "Product", .str "Apple"), (.str "Quantity", .int 4)]] =
      .ok ([.dict [(.str "Product", .str "Apple"), (.str "Quantity", .int 4)]].foldl
        (fun t sale => t + contribution [(.str "Apple", .float (5/2))] sale) 0, []) :=
  C6_total_is_ordered_sum _ _ (by decide) (by decide)

/-- C7: building from valid dict records (truthy hashable titles, numeric
prices), the catalogue maps a key to the price of the LAST record in input
order whose title equals it (last write wins), and warns about nothing. -/
theorem C7_duplicate_title_last_wins (pl : List PyVal)
    (hvalid : ∀ p ∈ pl, isDict p = true ∧ validRecord p = true ∧
      hashable (recTitle p) = true) :
    ∃ cat, build_price_catalogue pl = .ok (cat, []) ∧
      ∀ k, dictGet? cat k =
        (pl.reverse.find? (fun p => pyEq (recTitle p) k)).map recPrice := by
  obtain ⟨cat2, hrun, hget⟩ := buildLoop_get hvalid [] []
  refine ⟨cat2, hrun, fun k => ?_⟩
  rw [hget k]
  simp

/-- C7 witness: two valid records titled "A"; lookups find the second
record's price. -/
theorem C7_witness :
    ∃ cat, build_price_catalogue
        [.dict [(.str "title", .str "A"), (.str "price", .int 1)],
         .dict [(.str "title", .str "A"), (.str "price", .int 2)]] = .ok (cat, []) ∧
      ∀ k, dictGet? cat k =
        ([.dict [(.str "title", .str "A"), (.str "price", .int 1)],
          .dict [(.str "title", .str "A"), (.str "price", .int 2)]].reverse.find?
            (fun p => pyEq (recTitle p) k)).map recPrice :=
  C7_duplicate_title_last_wins _ (by decide)

/-- C8: when `compute_total_sales` returns (and source identifiers do not
repeat, as with a Python dict input), the result holds exactly one entry
per input source, in the same order, each carrying that source's
aggregation; a source with no sale lines aggregates to total `0.0` and an
empty error list. -/
theorem C8_result_per_source (cat : PyDict) (sources : List (String × List PyVal))
    (res : List (String × (ℚ × List String)))
    (hnd : (sources.map Prod.fst).Nodup)
    (hrun : compute_total_sales cat sources = .ok res) :
    res.map Prod.fst = sources.map Prod.fst ∧
    (∀ pr ∈ sources.zip res, pr.1.1 = pr.2.1 ∧ aggSource cat pr.1.2 = .ok pr.2.2) ∧
    aggSource cat ([] : List PyVal) = .ok (0, []) := by
  obtain ⟨tail, hout, hmap, hzip⟩ := computeLoop_append [] res hrun hnd (by simp)
  have hres : res = tail := by simpa using hout
  subst hres
  exact ⟨hmap, hzip, rfl⟩

/-- C8 witness: two sources — an empty one and one with an unknown
product — keep their order and per-source pairs. -/
theorem C8_witness :
    [("a", ((0 : ℚ), ([] : List String))),
     ("b", (0, ["Producto no encontrado en catálogo: X"]))].map Prod.fst =
      [("a", ([] : List PyVal)),
       ("b", [.dict [(.str "Product", .str "X")]])].map Prod.fst ∧
    (∀ pr ∈ [("a", ([] : List PyVal)),
       ("b", [.dict [(.str "Product", .str "X")]])].zip
        [("a", ((0 : ℚ), ([] : List String))),
         ("b", (0, ["Producto no encontrado en catálogo: X"]))],
      pr.1.1 = pr.2.1 ∧ aggSource [] pr.1.2 = .ok pr.2.2) ∧
    aggSource [] ([] : List PyVal) = .ok (0, []) :=
  C8_result_per_source [] _ _ (by decide) rfl

/-- C9: the catalogue is read-only during aggregation.  In the
state-threaded re-embedding, where every statement passes the catalogue it
ran with to the next statement, the catalogue coming out of a successful
run is the one that went in, and the run computes exactly what the plain
embedding computes. -/
theorem C9_catalogue_unchanged (cat : PyDict) (sources : List (String × List PyVal))
    (cat2 : PyDict) (res : List (String × (ℚ × List String)))
    (h : compute_total_salesS cat sources = .ok (cat2, res)) :
    cat2 = cat ∧ compute_total_sales cat sources = .ok res := by
  have he : compute_total_salesS cat sources
      = (computeLoop cat [] sources).map (fun r => (cat, r)) :=
    computeLoopS_eq sources cat []
  rw [he] at h
  cases hc : computeLoop cat [] sources with
  | error e =>
    rw [hc] at h
    exact absurd h (by simp [Except.map])
  | ok out =>
    rw [hc] at h
    simp only [Except.map] at h
    have h2 := Except.ok.inj h
    refine ⟨(congrArg Prod.fst h2).symm, ?_⟩
    show computeLoop cat [] sources = .ok res
    rw [hc]
    exact congrArg Except.ok (congrArg Prod.snd h2)

/-- C9 witness: a concrete run returns the catalogue it was given. -/
theorem C9_witness :
    [((.str "A" : PyVal), (.int 2 : PyVal))] = [((.str "A" : PyVal), (.int 2 : PyVal))] ∧
    compute_total_sales [(.str "A", .int 2)] [("f", [.dict [(.str "Product", .str "B")]])] =
      .ok [("f", (0, ["Producto no encontrado en catálogo: B"]))] :=
  C9_catalogue_unchanged [(.str "A", .int 2)] [("f", [.dict [(.str "Product", .str "B")]])]
    [(.str "A", .int 2)] [("f", (0, ["Producto no encontrado en catálogo: B"]))] rfl

/-- C10 counterexample: `Product = []` (not a key of any catalogue) with
non-numeric `Quantity = "x"` raises `TypeError` at the membership test,
appending no error at all — refuting the claim for arbitrary `Product`
values. -/
theorem C10_counterexample :
    compute_total_sales []
      [("f", [.dict [(.str "Product", .list []), (.str "Quantity", .str "x")]])]
      = .error "TypeError" ∧
    dictMem [] (.list []) = false ∧ isNumeric (.str "x") = false :=
  ⟨rfl, rfl, rfl⟩

/-- C10 (amended): for every sale line that is a dict whose `Product` is
hashable and not a catalogue key and whose `Quantity` is not
`isinstance`-numeric either, processing appends only the single
product-not-found error — the product check takes precedence and no second
(quantity) entry is ever produced for the line. -/
theorem C10_product_check_precedence (cat : PyDict) (acc : ℚ × List String) (sale : PyVal)
    (hd : isDict sale = true) (hh : hashable (lineProduct sale) = true)
    (hm : dictMem cat (lineProduct sale) = false)
    (_hq : isNumeric (lineQuantity sale) = false) :
    processSale cat acc sale =
      .ok (acc.1, acc.2 ++ ["Producto no encontrado en catálogo: " ++ pyStr (lineProduct sale)]) :=
  processSale_not_found hd hh hm

/-- C10 witness: unknown product "B" with string quantity appends only the
not-found error. -/
theorem C10_witness :
    processSale [] (0, []) (.dict [(.str "Product", .str "B"), (.str "Quantity", .str "x")]) =
      .ok (0, [] ++ ["Producto no encontrado en catálogo: "
        ++ pyStr (lineProduct (.dict [(.str "Product", .str "B"), (.str "Quantity", .str "x")]))]) :=
  C10_product_check_precedence [] (0, []) _ (by decide) (by decide) (by decide) (by decide)

end ComputeSales
